import Mathlib

/-!
Verification development for the cross-provider LLM tool-call normalization and
span-attribute extraction core of the repository.

JavaScript runtime values are embedded as a `Json` inductive; zod schema
validation (`safeParse`) is embedded as functions `Json → Option _` returning
the validated value (zod objects strip undeclared keys by default and retain
them where the source applies `.passthrough()`); a zod `.parse` that throws,
and any other thrown exception, is embedded as an `Option` result being `none`.
-/

set_option maxRecDepth 4000

/-- A JSON/JavaScript value. Numbers are embedded as rationals. -/
inductive Json where
  | null
  | bool (b : Bool)
  | num (q : Rat)
  | str (s : String)
  | arr (elements : List Json)
  | obj (fields : List (String × Json))


/-- First-match field lookup in an object's field list (JS objects produced by
`JSON.parse` have unique keys, so first-match agrees with property access). -/
def lookupField : List (String × Json) → String → Option Json
  | [], _ => none
  | (k, v) :: rest, key => if key = k then some v else lookupField rest key

/-- Property access `j[key]` on an object value; `none` on non-objects. -/
def Json.lookup : Json → String → Option Json
  | .obj fields, key => lookupField fields key
  | _, _ => none

/-- The field list of an object value, `none` for any other value. -/
def asObjFields : Json → Option (List (String × Json))
  | .obj fields => some fields
  | _ => none

/-- The text of a string value, `none` for any other value. -/
def asString : Json → Option String
  | .str s => some s
  | _ => none

/-- zod `z.record(z.unknown())`: accepts exactly plain objects and returns the
object with all of its entries (each value validated by `z.unknown`, which is
the identity). -/
def zodParseRecord (j : Json) : Option Json :=
  (asObjFields j).map Json.obj

/-- The model-provider enum (global type declared outside the shown modules;
its members are evidenced in the source by `ProviderToToolCallMap` and the
provider switches: OPENAI, AZURE_OPENAI, ANTHROPIC, GEMINI). -/
inductive ModelProvider where
  | OPENAI
  | AZURE_OPENAI
  | ANTHROPIC
  | GEMINI
deriving DecidableEq

/-- The validated value of `openAIToolCallSchema`: `id` and
`function.name`/`function.arguments`, plus the extra keys of the `function`
object that the nested `.passthrough()` retains. The top-level object is a
default (strip-mode) `z.object`, so top-level extra keys are dropped. -/
structure OpenAIParsed where
  id : String
  fnName : String
  fnArguments : Json
  fnExtra : List (String × Json)


/-- Re-serialization of a validated OpenAI tool call (declared fields in shape
order, then the function object's retained extra keys in input order). -/
def OpenAIParsed.toJson (v : OpenAIParsed) : Json :=
  .obj [("id", .str v.id),
        ("function", .obj (("name", .str v.fnName) :: ("arguments", v.fnArguments) :: v.fnExtra))]

/-- `openAIToolCallSchema.safeParse`: requires a string `id` and a `function`
object with a string `name` and a record `arguments`; tolerates unknown keys
everywhere, strips them at the top level and retains them (passthrough) inside
`function`. -/
def zodParseOpenAIToolCall (j : Json) : Option OpenAIParsed := do
  let fields ← asObjFields j
  let id ← (lookupField fields "id").bind asString
  let fnFields ← (lookupField fields "function").bind asObjFields
  let name ← (lookupField fnFields "name").bind asString
  let argsJ ← lookupField fnFields "arguments"
  let args ← zodParseRecord argsJ
  pure ⟨id, name, args, fnFields.filter (fun p => p.1 != "name" && p.1 != "arguments")⟩

/-- The validated value of `anthropicToolCallSchema`: `id`, `name`, `input`,
the literal `type : "tool_use"`, plus the extra keys the top-level
`.passthrough()` retains. -/
structure AnthropicParsed where
  id : String
  name : String
  input : Json
  extra : List (String × Json)


/-- Re-serialization of a validated Anthropic tool call. -/
def AnthropicParsed.toJson (v : AnthropicParsed) : Json :=
  .obj ([("id", .str v.id), ("type", .str "tool_use"),
         ("name", .str v.name), ("input", v.input)] ++ v.extra)

/-- `anthropicToolCallSchema.safeParse`: requires a string `id`, the literal
`type == "tool_use"`, a string `name` and a record `input`; the top-level
`.passthrough()` retains unknown keys. -/
def zodParseAnthropicToolCall (j : Json) : Option AnthropicParsed := do
  let fields ← asObjFields j
  let id ← (lookupField fields "id").bind asString
  let ty ← (lookupField fields "type").bind asString
  let name ← (lookupField fields "name").bind asString
  let inputJ ← lookupField fields "input"
  let input ← zodParseRecord inputJ
  if ty = "tool_use" then
    pure ⟨id, name, input,
      fields.filter (fun p => p.1 != "id" && p.1 != "type" && p.1 != "name" && p.1 != "input")⟩
  else none

/-- `anthropicToolCallToOpenAI.parse`: validate as an Anthropic tool call and
convert to the OpenAI shape; `none` embeds the `ZodError` throw. -/
def anthropicToolCallToOpenAI (toolCall : Json) : Option Json :=
  (zodParseAnthropicToolCall toolCall).map fun a =>
    .obj [("id", .str a.id),
          ("function", .obj [("name", .str a.name), ("arguments", a.input)])]

/-- `openAIToolCallToAnthropic.parse`: validate as an OpenAI tool call and
convert to the Anthropic shape. The transform body's runtime checks on
`arguments` (string wrapping, `?? \x7b\x7d` fallback) are translated as the
match on the validated `fnArguments`. -/
def openAIToolCallToAnthropic (toolCall : Json) : Option Json :=
  (zodParseOpenAIToolCall toolCall).map fun o =>
    .obj [("id", .str o.id), ("type", .str "tool_use"), ("name", .str o.fnName),
          ("input", match o.fnArguments with
                    | .str s => .obj [(s, .str s)]
                    | .null => .obj []
                    | a => a)]

/-- The result union of `detectToolCallProvider`. -/
inductive ToolCallWithProvider where
  | known (provider : ModelProvider) (validatedToolCall : Json)
  | unknown


/-- `detectToolCallProvider`: try the OpenAI schema first, then the Anthropic
schema, else UNKNOWN; an OpenAI-dialect match is always tagged OPENAI. -/
def detectToolCallProvider (toolCall : Json) : ToolCallWithProvider :=
  match zodParseOpenAIToolCall toolCall with
  | some v => .known .OPENAI v.toJson
  | none =>
    match zodParseAnthropicToolCall toolCall with
    | some v => .known .ANTHROPIC v.toJson
    | none => .unknown

/-- `toOpenAIToolCall`: detect the provider and convert to OpenAI format if
possible; `null` for UNKNOWN. The GEMINI arm embeds the source's
`assertUnreachable` throw (the detector never produces that tag). -/
def toOpenAIToolCall (toolCall : Json) : Option Json :=
  match detectToolCallProvider toolCall with
  | .known .OPENAI v => some v
  | .known .AZURE_OPENAI v => some v
  | .known .ANTHROPIC v => anthropicToolCallToOpenAI v
  | .known .GEMINI _ => none
  | .unknown => none

/-- `fromOpenAIToolCall`: convert a tool call in OpenAI format to the target
provider's format (identity for OpenAI/Azure/Gemini targets). -/
def fromOpenAIToolCall (targetProvider : ModelProvider) (toolCall : Json) : Option Json :=
  match targetProvider with
  | .OPENAI => some toolCall
  | .AZURE_OPENAI => some toolCall
  | .ANTHROPIC => openAIToolCallToAnthropic toolCall
  | .GEMINI => some toolCall

/-!
Safe JSON ingestion. The repository's `safelyParseJSON` helper (module
`utils/jsonUtils`) is not among the shown sources; per the spec it wraps
`JSON.parse`: it returns the parsed structure on success and a parse-error
marker on failure, and never raises. We model it with an executable
recursive-descent JSON parser over the `Json` type.
-/

/-- JSON whitespace. -/
def isJsonWs (c : Char) : Bool :=
  c = ' ' || c = '\t' || c = '\n' || c = '\r'

/-- Drop leading JSON whitespace. -/
def skipWs (cs : List Char) : List Char :=
  cs.dropWhile isJsonWs

/-- Value of a hexadecimal digit. -/
def hexVal (c : Char) : Option Nat :=
  if '0' ≤ c ∧ c ≤ '9' then some (c.toNat - '0'.toNat)
  else if 'a' ≤ c ∧ c ≤ 'f' then some (c.toNat - 'a'.toNat + 10)
  else if 'A' ≤ c ∧ c ≤ 'F' then some (c.toNat - 'A'.toNat + 10)
  else none

/-- Parse the remainder of a JSON string literal (the opening quote already
consumed), handling the JSON escapes; unescaped control characters are
rejected as in `JSON.parse`. -/
def parseJsonStr : Nat → List Char → Option (String × List Char)
  | 0, _ => none
  | _, [] => none
  | fuel + 1, c :: rest =>
    if c = '"' then some ("", rest)
    else if c = '\\' then
      match rest with
      | [] => none
      | e :: rest2 =>
        let cont : Char → List Char → Option (String × List Char) := fun ch rs =>
          (parseJsonStr fuel rs).map fun p => (String.mk (ch :: p.1.data), p.2)
        if e = '"' then cont '"' rest2
        else if e = '\\' then cont '\\' rest2
        else if e = '/' then cont '/' rest2
        else if e = 'b' then cont (Char.ofNat 8) rest2
        else if e = 'f' then cont (Char.ofNat 12) rest2
        else if e = 'n' then cont '\n' rest2
        else if e = 'r' then cont '\r' rest2
        else if e = 't' then cont '\t' rest2
        else if e = 'u' then
          match rest2 with
          | h1 :: h2 :: h3 :: h4 :: rest3 =>
            match hexVal h1, hexVal h2, hexVal h3, hexVal h4 with
            | some a, some b, some c2, some d =>
              cont (Char.ofNat (((a * 16 + b) * 16 + c2) * 16 + d)) rest3
            | _, _, _, _ => none
          | _ => none
        else none
    else if c.toNat < 32 then none
    else (parseJsonStr fuel rest).map fun p => (String.mk (c :: p.1.data), p.2)

/-- Numeric value of a digit list. -/
def digitsToNat (ds : List Char) : Nat :=
  ds.foldl (fun acc c => acc * 10 + (c.toNat - '0'.toNat)) 0

/-- Parse a JSON number (grammar `-?(0|[1-9][0-9]*)(.[0-9]+)?([eE][+-]?[0-9]+)?`)
into a rational. -/
def parseJsonNumber (cs : List Char) : Option (Rat × List Char) :=
  let signed := match cs with
    | '-' :: r => (true, r)
    | _ => (false, cs)
  let neg := signed.1
  let cs1 := signed.2
  let intDigits := cs1.takeWhile Char.isDigit
  let cs2 := cs1.dropWhile Char.isDigit
  if intDigits = [] then none
  else if intDigits.head? = some '0' ∧ intDigits.length > 1 then none
  else
    let withFrac : Option (List Char × List Char) := match cs2 with
      | '.' :: r =>
        let fds := r.takeWhile Char.isDigit
        if fds = [] then none else some (fds, r.dropWhile Char.isDigit)
      | _ => some ([], cs2)
    match withFrac with
    | none => none
    | some (fracDigits, cs3) =>
      let withExp : Option (Int × List Char) := match cs3 with
        | 'e' :: r | 'E' :: r =>
          let esigned : (Bool × List Char) := match r with
            | '+' :: r2 => (false, r2)
            | '-' :: r2 => (true, r2)
            | _ => (false, r)
          let eds := esigned.2.takeWhile Char.isDigit
          if eds = [] then none
          else
            let e : Int := (digitsToNat eds : Int)
            some (if esigned.1 then -e else e, esigned.2.dropWhile Char.isDigit)
        | _ => some (0, cs3)
      match withExp with
      | none => none
      | some (e, cs4) =>
        let mantissa : Nat := digitsToNat (intDigits ++ fracDigits)
        let numerator : Nat := if 0 ≤ e then mantissa * 10 ^ e.toNat else mantissa
        let denominator : Nat :=
          if 0 ≤ e then 10 ^ fracDigits.length
          else 10 ^ fracDigits.length * 10 ^ (-e).toNat
        let signedNumerator : Int :=
          if neg then -(numerator : Int) else (numerator : Int)
        some (Rat.divInt signedNumerator (denominator : Int), cs4)

/-- Insert a member parsed from a JSON object literal: on a duplicate key the
original position is kept and the value overwritten, as in `JSON.parse`. -/
def objInsert (fields : List (String × Json)) (k : String) (v : Json) :
    List (String × Json) :=
  if fields.any (fun p => p.1 == k) then
    fields.map (fun p => if p.1 == k then (p.1, v) else p)
  else fields ++ [(k, v)]

mutual

/-- Parse one JSON value, returning it with the unconsumed remainder. -/
def parseJsonValue : Nat → List Char → Option (Json × List Char)
  | 0, _ => none
  | fuel + 1, cs =>
    match skipWs cs with
    | [] => none
    | c :: rest =>
      if c = 'n' then
        match rest with
        | 'u' :: 'l' :: 'l' :: r => some (.null, r)
        | _ => none
      else if c = 't' then
        match rest with
        | 'r' :: 'u' :: 'e' :: r => some (.bool true, r)
        | _ => none
      else if c = 'f' then
        match rest with
        | 'a' :: 'l' :: 's' :: 'e' :: r => some (.bool false, r)
        | _ => none
      else if c = '"' then
        (parseJsonStr fuel rest).map fun p => (.str p.1, p.2)
      else if c = '[' then
        match skipWs rest with
        | ']' :: r => some (.arr [], r)
        | _ => parseJsonElements fuel rest []
      else if c = '{' then
        match skipWs rest with
        | '}' :: r => some (.obj [], r)
        | _ => parseJsonMembers fuel rest []
      else if c = '-' ∨ c.isDigit then
        (parseJsonNumber (c :: rest)).map fun p => (.num p.1, p.2)
      else none

/-- Parse the comma-separated elements of a JSON array (after `[`). -/
def parseJsonElements : Nat → List Char → List Json → Option (Json × List Char)
  | 0, _, _ => none
  | fuel + 1, cs, acc =>
    match parseJsonValue fuel cs with
    | none => none
    | some (v, r1) =>
      match skipWs r1 with
      | ',' :: r2 => parseJsonElements fuel r2 (acc ++ [v])
      | ']' :: r2 => some (.arr (acc ++ [v]), r2)
      | _ => none

/-- Parse the members of a JSON object (after `\x7b`). -/
def parseJsonMembers : Nat → List Char → List (String × Json) →
    Option (Json × List Char)
  | 0, _, _ => none
  | fuel + 1, cs, acc =>
    match skipWs cs with
    | '"' :: r0 =>
      match parseJsonStr fuel r0 with
      | none => none
      | some (k, r1) =>
        match skipWs r1 with
        | ':' :: r2 =>
          match parseJsonValue fuel r2 with
          | none => none
          | some (v, r3) =>
            match skipWs r3 with
            | ',' :: r4 => parseJsonMembers fuel r4 (objInsert acc k v)
            | '}' :: r4 => some (.obj (objInsert acc k v), r4)
            | _ => none
        | _ => none
    | _ => none

end

/-- Modelled from the spec: `safelyParseJSON` (module `utils/jsonUtils`, not
among the shown sources) — safe JSON ingestion, `parse(text) -> value or
parse-error marker`, never raises; the whole text must be one JSON value. -/
def safelyParseJSON (text : String) : Option Json :=
  match parseJsonValue (2 * text.length + 2) text.data with
  | some (j, rest) => if skipWs rest = [] then some j else none
  | none => none

/-!
The playground extraction pipeline (`playgroundUtils.ts`). Its helper modules
`./constants`, `./schemas`, the session store and the generated GraphQL input
type are not among the shown sources; those parts are modelled from the spec
and marked as such. Freshly generated opaque identifiers (`generateMessageId`,
`generateToolId`) carry no information (the spec specifies them as an injected
identifier-generation capability, content-irrelevant), so they are omitted
from the embedded entities.
-/

/-- The error codes of the extraction pipeline (module `./constants`, not
among the shown sources; the codes' user-facing text is irrelevant, the code
identity is what the pipeline manipulates). -/
inductive PlaygroundError where
  | SPAN_ATTRIBUTES_PARSING_ERROR
  | INPUT_MESSAGES_PARSING_ERROR
  | OUTPUT_MESSAGES_PARSING_ERROR
  | OUTPUT_VALUE_PARSING_ERROR
  | MODEL_CONFIG_PARSING_ERROR
  | MODEL_CONFIG_WITH_INVOCATION_PARAMETERS_PARSING_ERROR
  | TOOLS_PARSING_ERROR
deriving DecidableEq

/-- Modelled from the spec: the closed chat-role enum (SYSTEM, USER,
ASSISTANT, TOOL); declared in constants not among the shown sources. -/
inductive ChatMessageRole where
  | system
  | user
  | assistant
  | tool
deriving DecidableEq

/-- Modelled from the spec: `chatMessageRolesSchema` — exact membership of a
string in the closed role enum. -/
def chatMessageRoleOfString : String → Option ChatMessageRole
  | "system" => some .system
  | "user" => some .user
  | "assistant" => some .assistant
  | "tool" => some .tool
  | _ => none

/-- Modelled from the spec: `ChatRoleMap` — an ordered list of
`(canonicalRole, acceptedAliasStrings)` pairs; the spec pins that the alias
`"ai"` resolves to the assistant role. -/
def ChatRoleMap : List (ChatMessageRole × List String) :=
  [(.assistant, ["ai"])]

/-- Modelled from the spec: `DEFAULT_CHAT_ROLE` — the fixed default role
returned when no exact member or alias matches. -/
def DEFAULT_CHAT_ROLE : ChatMessageRole := .user

/-- `getChatRole`: exact enum match first, then the first alias-table entry
whose accepted list contains the string, else the fixed default. -/
def getChatRole (role : String) : ChatMessageRole :=
  match chatMessageRoleOfString role with
  | some r => r
  | none =>
    match ChatRoleMap.find? (fun p => p.2.contains role) with
    | some p => p.1
    | none => DEFAULT_CHAT_ROLE

/-- A tool-call fragment inside a span message, per the semantic conventions
(§6 of the spec): `function.name` and text-encoded `function.arguments`. -/
structure AttrToolCallFunction where
  name : Option String
  arguments : Option String

/-- A `tool_call` object inside a span message. -/
structure AttrToolCall where
  id : Option String
  function : Option AttrToolCallFunction

/-- One entry of a message's `tool_calls` list. -/
structure AttrToolCallEntry where
  tool_call : Option AttrToolCall

/-- One message from `llm.input_messages` / `llm.output_messages`. -/
structure AttrMessage where
  role : String
  content : Option String
  tool_calls : Option (List AttrToolCallEntry)

/-- Parse an optional string-valued field: absent is fine, a present
non-string value is a validation failure. -/
def parseOptStringField (fields : List (String × Json)) (key : String) :
    Option (Option String) :=
  match lookupField fields key with
  | none => some none
  | some (.str s) => some (some s)
  | some _ => none

/-- Modelled from the spec: the tool-call fragment of the message schema in
`./schemas` (not among the shown sources). -/
def parseAttrToolCallFunction (j : Json) : Option AttrToolCallFunction := do
  let fields ← asObjFields j
  let name ← parseOptStringField fields "name"
  let args ← parseOptStringField fields "arguments"
  pure ⟨name, args⟩

/-- Modelled from the spec: one `tool_call` object. -/
def parseAttrToolCall (j : Json) : Option AttrToolCall := do
  let fields ← asObjFields j
  let id ← parseOptStringField fields "id"
  let fn ← match lookupField fields "function" with
    | none => some none
    | some fnJ => (parseAttrToolCallFunction fnJ).map some
  pure ⟨id, fn⟩

/-- Modelled from the spec: one entry of a `tool_calls` list. -/
def parseAttrToolCallEntry (j : Json) : Option AttrToolCallEntry := do
  let fields ← asObjFields j
  let tc ← match lookupField fields "tool_call" with
    | none => some none
    | some tcJ => (parseAttrToolCall tcJ).map some
  pure ⟨tc⟩

/-- Modelled from the spec: one `\x7bmessage: \x7brole, content, tool_calls\x7d\x7d`
entry of a messages list. -/
def parseMessageEntry (j : Json) : Option AttrMessage := do
  let fields ← asObjFields j
  let msgF ← (lookupField fields "message").bind asObjFields
  let role ← (lookupField msgF "role").bind asString
  let content ← parseOptStringField msgF "content"
  let tool_calls ← match lookupField msgF "tool_calls" with
    | none => some none
    | some (.arr xs) => (xs.mapM parseAttrToolCallEntry).map some
    | some _ => none
  pure ⟨role, content, tool_calls⟩

/-- Modelled from the spec: the `llm.input_messages` / `llm.output_messages`
chat shapes of `./schemas` (not among the shown sources), parameterized by the
messages key. -/
def llmMessagesParse (key : String) (j : Json) : Option (List AttrMessage) := do
  let fields ← asObjFields j
  let llmF ← (lookupField fields "llm").bind asObjFields
  match lookupField llmF key with
  | some (.arr xs) => xs.mapM parseMessageEntry
  | _ => none

/-- Modelled from the spec: `llmInputMessageSchema.safeParse`. -/
def llmInputMessagesParse : Json → Option (List AttrMessage) :=
  llmMessagesParse "input_messages"

/-- Modelled from the spec: `llmOutputMessageSchema.safeParse`. -/
def llmOutputMessagesParse : Json → Option (List AttrMessage) :=
  llmMessagesParse "output_messages"

/-- Modelled from the spec: `outputSchema.safeParse` — the free-form
`output.value` shape, a text value under the dotted path `output.value`. -/
def outputValueParse (j : Json) : Option String := do
  let fields ← asObjFields j
  let outF ← (lookupField fields "output").bind asObjFields
  (lookupField outF "value").bind asString

/-- Modelled from the spec: `modelConfigSchema.safeParse` — requires a string
`llm.model_name`. -/
def modelConfigParse (j : Json) : Option String := do
  let fields ← asObjFields j
  let llmF ← (lookupField fields "llm").bind asObjFields
  (lookupField llmF "model_name").bind asString

/-- Modelled from the spec:
`modelConfigWithInvocationParametersSchema.safeParse` — the model-config shape
plus an `llm.invocation_parameters` map (absent degrades to the empty map, as
in the source's `?? \x7b\x7d`). -/
def modelConfigWithInvocationParametersParse (j : Json) :
    Option (List (String × Json)) := do
  let fields ← asObjFields j
  let llmF ← (lookupField fields "llm").bind asObjFields
  let _ ← (lookupField llmF "model_name").bind asString
  match lookupField llmF "invocation_parameters" with
  | none => some []
  | some (.obj fs) => some fs
  | some _ => none

/-- One entry of the `llm.tools` list: an optional `tool` object whose
`json_schema` is kept when present. -/
structure AttrToolEntry where
  tool : Option Json

/-- The optional `llm.tools` path of the validated tools shape. -/
structure LlmToolsAttr where
  tools : Option (List AttrToolEntry)

/-- The validated value of the tools schema. -/
structure LlmToolSchemaData where
  llm : Option LlmToolsAttr

/-- Modelled from the spec: one `\x7btool: \x7bjson_schema\x7d\x7d` entry. -/
def parseAttrToolEntry (j : Json) : Option AttrToolEntry := do
  let fields ← asObjFields j
  match lookupField fields "tool" with
  | none => some ⟨none⟩
  | some tJ => do
    let tf ← asObjFields tJ
    let js ← lookupField tf "json_schema"
    pure ⟨some js⟩

/-- Modelled from the spec: `llmToolSchema.safeParse` — an optional `llm.tools`
path that, when present, must be an ordered list of `\x7btool: \x7bjson_schema\x7d\x7d`
entries; absence of `llm` or of `tools` validates successfully. -/
def llmToolSchemaParse (j : Json) : Option LlmToolSchemaData := do
  let fields ← asObjFields j
  match lookupField fields "llm" with
  | none => some ⟨none⟩
  | some llmJ => do
    let llmF ← asObjFields llmJ
    match lookupField llmF "tools" with
    | none => some ⟨some ⟨none⟩⟩
    | some (.arr xs) => (xs.mapM parseAttrToolEntry).map fun ts => ⟨some ⟨some ts⟩⟩
    | some _ => none

/-- A canonical chat message (store `ChatMessage`; the freshly generated
opaque `id` is omitted, see above). Tool calls are kept in their
provider-shaped wire form. -/
structure ChatMessage where
  role : ChatMessageRole
  content : Option String
  toolCalls : Option (List Json)

/-- A canonical tool (store `Tool`; generated `id` omitted). -/
structure Tool where
  definition : Json

/-- A JS optional value as stored in the invocation-parameter records:
JavaScript distinguishes `undefined` from `null` from a string. -/
inductive JsVal where
  | undef
  | null
  | str (s : String)
deriving DecidableEq

/-- The loose `x == null` test: true exactly for `undefined` and `null`. -/
def JsVal.isNullish : JsVal → Bool
  | .undef => true
  | .null => true
  | .str _ => false

/-- JS truthiness of an optional string (`undefined`, `null` and `""` are
falsy): the string when truthy. -/
def JsVal.truthyStr : JsVal → Option String
  | .str s => if s = "" then none else some s
  | _ => none

/-- An invocation-parameter definition declared by a model
(`InvocationParameter` from `InvocationParametersForm`, not among the shown
sources; the source only reads these three optional fields). -/
structure InvocationParameter where
  invocationName : JsVal
  canonicalName : JsVal
  invocationInputField : JsVal
deriving DecidableEq

/-- A built invocation-parameter input (generated GraphQL input type, not
among the shown sources): a required `invocationName`, an optional
`canonicalName`, and one value slot whose key is the camelCased input field. -/
structure InvocationParameterInput where
  invocationName : String
  canonicalName : JsVal
  valueField : String
  value : Json

/-- JS `String.prototype.toLowerCase` restricted to the ASCII range the
sources compare over. -/
def strToLower (s : String) : String :=
  String.mk (s.data.map Char.toLower)

/-- `toCamelCase` character recursion: every occurrence of `_` followed by an
ASCII lowercase letter is replaced by the letter uppercased (the source's
global regex replace). -/
def camelChars : List Char → List Char
  | '_' :: c :: rest =>
    if c.isLower then c.toUpper :: camelChars rest else '_' :: camelChars (c :: rest)
  | c :: rest => c :: camelChars rest
  | [] => []

/-- `toCamelCase`: converts a string from snake_case to camelCase. -/
def toCamelCase (s : String) : String :=
  String.mk (camelChars s.data)

/-- `transformInvocationParametersFromAttributesToInvocationParameterInputs`:
for each raw `(key, value)` entry, find the first definition whose truthy
`canonicalName` or truthy `invocationName` equals the key case-insensitively;
drop the entry if none is found or the found definition's
`invocationInputField` or `invocationName` is nullish, else emit the input. -/
def transformInvocationParametersFromAttributesToInvocationParameterInputs
    (invocationParameters : List (String × Json))
    (modelSupportedInvocationParameters : List InvocationParameter) :
    List InvocationParameterInput :=
  invocationParameters.filterMap fun kv =>
    match modelSupportedInvocationParameters.find? (fun mp =>
        (match mp.canonicalName.truthyStr with
         | some cn => strToLower cn == strToLower kv.1
         | none => false) ||
        (match mp.invocationName.truthyStr with
         | some n => strToLower n == strToLower kv.1
         | none => false)) with
    | none => none
    | some invocationParameter =>
      match invocationParameter.invocationInputField,
            invocationParameter.invocationName with
      | .str f, .str n =>
        some { invocationName := n,
               canonicalName := invocationParameter.canonicalName,
               valueField := toCamelCase f,
               value := kv.2 }
      | _, _ => none

/-- `constrainInvocationParameterInputsToDefinition`: keep the inputs matching
a definition by strict equality on `invocationName`, or on `canonicalName`
when both sides are non-nullish; rewrite each survivor's `invocationName` from
the first definition whose `canonicalName` is strictly (`===`) equal to the
input's, falling back to the input's own name when there is none or its
`invocationName` is nullish. -/
def constrainInvocationParameterInputsToDefinition
    (invocationParameterInputs : List InvocationParameterInput)
    (definitions : List InvocationParameter) : List InvocationParameterInput :=
  (invocationParameterInputs.filter fun ip =>
      definitions.any fun mp =>
        mp.invocationName == JsVal.str ip.invocationName ||
        (!mp.canonicalName.isNullish && !ip.canonicalName.isNullish &&
          mp.canonicalName == ip.canonicalName)).map fun ip =>
    { ip with invocationName :=
        match definitions.find? (fun mp => mp.canonicalName == ip.canonicalName) with
        | some mp =>
          match mp.invocationName with
          | .str n => n
          | _ => ip.invocationName
        | none => ip.invocationName }

/-- `processAttributeToolCalls`: build provider-shaped tool calls from span
tool-call fragments; text arguments are JSON-decoded defensively (malformed or
non-object text degrades to an empty map). The outer `Option` embeds the
thrown `assertUnreachable` of the provider switch, which has no GEMINI case;
the inner `Option` is the source's `null` marker for an absent `tool_call`.
This is the `.map` callback body of `processAttributeToolCalls`. -/
def processOneAttributeToolCall (provider : ModelProvider)
    (entry : AttrToolCallEntry) : Option (Option Json) :=
  match entry.tool_call with
  | none => some none
  | some tc =>
    let toolCallArgs : Json :=
      match tc.function.bind (fun f => f.arguments) with
      | some s =>
        match safelyParseJSON s with
        | some (.obj fs) => .obj fs
        | _ => .obj []
      | none => .obj []
    match provider with
    | .OPENAI | .AZURE_OPENAI =>
      some (some (.obj [("id", .str (tc.id.getD "")),
        ("function", .obj [("name", .str ((tc.function.bind (fun f => f.name)).getD "")),
                           ("arguments", toolCallArgs)])]))
    | .ANTHROPIC =>
      some (some (.obj [("id", .str (tc.id.getD "")), ("type", .str "tool_use"),
        ("name", .str ((tc.function.bind (fun f => f.name)).getD "")),
        ("input", toolCallArgs)]))
    | .GEMINI => none

/-- The per-message-list body of `processAttributeToolCalls` (the `.map` with
nulls filtered afterwards); `none` embeds the thrown `assertUnreachable`. -/
def processAttributeToolCalls (provider : ModelProvider)
    (toolCalls : Option (List AttrToolCallEntry)) : Option (Option (List Json)) :=
  match toolCalls with
  | none => some none
  | some tcs =>
    (tcs.mapM (processOneAttributeToolCall provider)).map fun l =>
      some (l.filterMap id)

/-- `processAttributeMessagesToChatMessage`: map span messages to canonical
chat messages, resolving roles through `getChatRole`. -/
def processAttributeMessagesToChatMessage (provider : ModelProvider)
    (messages : List AttrMessage) : Option (List ChatMessage) :=
  messages.mapM fun m =>
    (processAttributeToolCalls provider m.tool_calls).map fun tcs =>
      { role := getChatRole m.role, content := m.content, toolCalls := tcs }

/-- `getTemplateMessagesFromAttributes`: the input-messages extraction step. -/
def getTemplateMessagesFromAttributes (provider : ModelProvider) (parsedAttributes : Json) :
    Option (Option (List ChatMessage) × List PlaygroundError) :=
  match llmInputMessagesParse parsedAttributes with
  | none => some (none, [.INPUT_MESSAGES_PARSING_ERROR])
  | some msgs =>
    (processAttributeMessagesToChatMessage provider msgs).map fun ms => (some ms, [])

/-- The extracted output: either chat messages or the free-form text value. -/
inductive PlaygroundOutput where
  | messages (value : List ChatMessage)
  | text (value : String)

/-- `getOutputFromAttributes`: try `llm.output_messages`, then `output.value`,
accumulating one error code per failed shape. -/
def getOutputFromAttributes (provider : ModelProvider) (parsedAttributes : Json) :
    Option (Option PlaygroundOutput × List PlaygroundError) :=
  match llmOutputMessagesParse parsedAttributes with
  | some msgs =>
    (processAttributeMessagesToChatMessage provider msgs).map fun ms =>
      (some (.messages ms), [])
  | none =>
    match outputValueParse parsedAttributes with
    | some s => some (some (.text s), [.OUTPUT_MESSAGES_PARSING_ERROR])
    | none => some (none, [.OUTPUT_MESSAGES_PARSING_ERROR, .OUTPUT_VALUE_PARSING_ERROR])

/-- Modelled from the spec: `modelProviderToModelPrefixMap` (module
`./constants`, not among the shown sources) — a fixed-order list of
`(provider, name fragments)` pairs; the spec pins `gpt → OPENAI` and
`claude → ANTHROPIC`, with the default provider for anything unmatched. -/
def modelProviderToModelPrefixMap : List (ModelProvider × List String) :=
  [(.OPENAI, ["gpt"]), (.AZURE_OPENAI, []), (.ANTHROPIC, ["claude"]), (.GEMINI, ["gemini"])]

/-- Modelled from the spec: `DEFAULT_MODEL_PROVIDER`. -/
def DEFAULT_MODEL_PROVIDER : ModelProvider := .OPENAI

/-- JS `String.prototype.includes`: substring containment. -/
def strContainsSubstr (s pat : String) : Bool :=
  s.data.tails.any fun t => List.isPrefixOf pat.data t

/-- `getModelProviderFromModelName`: first provider one of whose name
fragments occurs in the model name, else the default provider. -/
def getModelProviderFromModelName (modelName : String) : ModelProvider :=
  match modelProviderToModelPrefixMap.find?
      (fun p => p.2.any (fun fragment => strContainsSubstr modelName fragment)) with
  | some p => p.1
  | none => DEFAULT_MODEL_PROVIDER

/-- The canonical model configuration (store `ModelConfig`). -/
structure ModelConfig where
  modelName : String
  provider : ModelProvider
  invocationParameters : List InvocationParameterInput

/-- `getBaseModelConfigFromAttributes`: requires `llm.model_name`; infers the
provider from the model name. -/
def getBaseModelConfigFromAttributes (parsedAttributes : Json) :
    Option ModelConfig × List PlaygroundError :=
  match modelConfigParse parsedAttributes with
  | some name =>
    (some { modelName := name, provider := getModelProviderFromModelName name,
            invocationParameters := [] }, [])
  | none => (none, [.MODEL_CONFIG_PARSING_ERROR])

/-- `getModelInvocationParametersFromAttributes`: reconcile whatever
invocation-parameter map was recoverable (possibly empty) against the model's
supported definitions, recording a parsing error when the shape mismatched. -/
def getModelInvocationParametersFromAttributes (parsedAttributes : Json)
    (modelSupportedInvocationParameters : List InvocationParameter) :
    List InvocationParameterInput × List PlaygroundError :=
  match modelConfigWithInvocationParametersParse parsedAttributes with
  | some params =>
    (transformInvocationParametersFromAttributesToInvocationParameterInputs
      params modelSupportedInvocationParameters, [])
  | none =>
    (transformInvocationParametersFromAttributesToInvocationParameterInputs
      [] modelSupportedInvocationParameters,
     [.MODEL_CONFIG_WITH_INVOCATION_PARAMETERS_PARSING_ERROR])

/-- `processAttributeTools`: map the validated `llm.tools` entries to
canonical tools, skipping entries without a `tool` object. -/
def processAttributeTools (tools : LlmToolSchemaData) : List Tool :=
  ((tools.llm.bind (fun l => l.tools)).getD []).filterMap fun e =>
    e.tool.map fun js => ⟨js⟩

/-- `getToolsFromAttributes`: a failed tools-shape validation yields
`TOOLS_PARSING_ERROR`; an absent `llm.tools` path is not an error. -/
def getToolsFromAttributes (parsedAttributes : Json) :
    Option (List Tool) × List PlaygroundError :=
  match llmToolSchemaParse parsedAttributes with
  | none => (none, [.TOOLS_PARSING_ERROR])
  | some data =>
    match data.llm.bind (fun l => l.tools) with
    | none => (none, [])
    | some _ => (some (processAttributeTools data), [])

/-- The chat template of an instance. -/
inductive Template where
  | chat (messages : List ChatMessage)

/-- The canonical playground instance fragment populated by extraction. -/
structure PlaygroundInstance where
  model : ModelConfig
  template : Template
  output : Option PlaygroundOutput
  tools : List Tool
  spanId : Option String

/-- Modelled from the spec: `createPlaygroundInstance` (session store, not
among the shown sources) — the default/empty canonical instance. -/
def createPlaygroundInstance : PlaygroundInstance :=
  { model := { modelName := "", provider := DEFAULT_MODEL_PROVIDER,
               invocationParameters := [] },
    template := .chat [],
    output := none,
    tools := [],
    spanId := none }

/-- A span handed to the extraction pass: its raw attributes text, id, and the
model-supported invocation-parameter definitions. -/
structure PlaygroundSpan where
  id : String
  attributes : String
  invocationParameters : List InvocationParameter

/-- `transformSpanAttributesToPlaygroundInstance`: the full extraction pass.
A failed JSON ingestion short-circuits with the default instance and exactly
`[SPAN_ATTRIBUTES_PARSING_ERROR]`; otherwise the four extraction steps run and
their error lists are concatenated in the source's order (messages, output,
model config, tools, invocation parameters). The outer `Option` embeds the
(unreachable-by-intent) `assertUnreachable` throw of the provider switches. -/
def transformSpanAttributesToPlaygroundInstance (span : PlaygroundSpan) :
    Option (PlaygroundInstance × List PlaygroundError) :=
  let basePlaygroundInstance := createPlaygroundInstance
  match safelyParseJSON span.attributes with
  | none =>
    some ({ basePlaygroundInstance with spanId := some span.id },
          [.SPAN_ATTRIBUTES_PARSING_ERROR])
  | some parsedAttributes =>
    let baseModelConfigResult := getBaseModelConfigFromAttributes parsedAttributes
    let provider :=
      (baseModelConfigResult.1.map (fun mc => mc.provider)).getD
        basePlaygroundInstance.model.provider
    match getTemplateMessagesFromAttributes provider parsedAttributes with
    | none => none
    | some (messages, messageParsingErrors) =>
      match getOutputFromAttributes provider parsedAttributes with
      | none => none
      | some (output, outputParsingErrors) =>
        let invocationRes := getModelInvocationParametersFromAttributes
          parsedAttributes span.invocationParameters
        let modelConfig : Option ModelConfig :=
          baseModelConfigResult.1.map fun mc =>
            { mc with invocationParameters := invocationRes.1 }
        let toolsRes := getToolsFromAttributes parsedAttributes
        some ({ basePlaygroundInstance with
                  model := modelConfig.getD basePlaygroundInstance.model,
                  template :=
                    match messages with
                    | some ms => .chat ms
                    | none => basePlaygroundInstance.template,
                  output := output,
                  spanId := some span.id,
                  tools := toolsRes.1.getD basePlaygroundInstance.tools },
              messageParsingErrors ++ outputParsingErrors ++
                baseModelConfigResult.2 ++ toolsRes.2 ++ invocationRes.2)

/-- Claim-side matcher for reconciliation (following the amended C9 claim's
words): the definition's stored canonical or invocation name must be a
non-empty string equal to the key case-insensitively. -/
def matchesKeyCaseInsensitive (name : JsVal) (key : String) : Bool :=
  match name with
  | .str s => !(s == "") && (strToLower s == strToLower key)
  | _ => false

/-- Claim-side per-entry reconciliation (following the amended C9 claim's
words): build the input from the first definition matching the key, dropping
the entry when no definition matches or the matched definition lacks an
`invocationInputField` or `invocationName`. -/
def reconcileEntryAmended (definitions : List InvocationParameter)
    (kv : String × Json) : Option InvocationParameterInput :=
  match definitions.find? (fun mp =>
      matchesKeyCaseInsensitive mp.canonicalName kv.1 ||
      matchesKeyCaseInsensitive mp.invocationName kv.1) with
  | some mp =>
    match mp.invocationInputField, mp.invocationName with
    | .str f, .str n =>
      some { invocationName := n, canonicalName := mp.canonicalName,
             valueField := toCamelCase f, value := kv.2 }
    | _, _ => none
  | none => none

/-- Claim-side keep criterion of `constrain` (C10): the input matches some
definition by exact equality on `invocationName`, or by exact equality on
`canonicalName` when both sides' `canonicalName` are non-null. -/
def KeepsInput (definitions : List InvocationParameter)
    (ip : InvocationParameterInput) : Prop :=
  ∃ mp ∈ definitions,
    mp.invocationName = JsVal.str ip.invocationName ∨
    (mp.canonicalName.isNullish = false ∧ ip.canonicalName.isNullish = false ∧
      mp.canonicalName = ip.canonicalName)

instance (definitions : List InvocationParameter) (ip : InvocationParameterInput) :
    Decidable (KeepsInput definitions ip) :=
  List.decidableBEx _ definitions

/-- The `?? fallback` view of an optional string: the string when it is one,
`none` when nullish (used by the claim-side rewrite step). -/
def JsVal.strVal : JsVal → Option String
  | .str s => some s
  | _ => none

/-- Claim-side rewrite step of `constrain` (following the amended C10 claim's
words): the surviving input's `invocationName` becomes the `invocationName` of
the first definition whose `canonicalName` is strictly identical to the
input's — including when both are absent or both are null in the same way —
and is left unchanged when there is no such definition or it lacks an
`invocationName`. -/
def rewriteInputName (definitions : List InvocationParameter)
    (ip : InvocationParameterInput) : InvocationParameterInput :=
  { ip with invocationName :=
      (((definitions.find? fun mp => mp.canonicalName == ip.canonicalName).bind
        fun mp => mp.invocationName.strVal).getD ip.invocationName) }


/-- A bind through `asString` succeeding forces a string value. -/
theorem bind_asString_eq_some {x : Option Json} {s : String}
    (h : x.bind asString = some s) : x = some (.str s) := by
  rcases Option.bind_eq_some.mp h with ⟨j, hj, hs⟩
  cases j <;> simp [asString] at hs
  subst hs
  exact hj

/-- A bind through `asObjFields` succeeding forces an object value. -/
theorem bind_asObjFields_eq_some {x : Option Json} {fs : List (String × Json)}
    (h : x.bind asObjFields = some fs) : x = some (.obj fs) := by
  rcases Option.bind_eq_some.mp h with ⟨j, hj, ho⟩
  cases j <;> simp [asObjFields] at ho
  subst ho
  exact hj

/-- A successful record validation is the identity on an object value. -/
theorem zodParseRecord_eq_some {j r : Json} (h : zodParseRecord j = some r) :
    r = j ∧ ∃ fs, j = .obj fs := by
  cases j <;> simp [zodParseRecord, asObjFields] at h
  subst h
  exact ⟨rfl, _, rfl⟩

/-- Inversion of a successful OpenAI-schema validation. -/
theorem zodParseOpenAIToolCall_inv {j : Json} {v : OpenAIParsed}
    (h : zodParseOpenAIToolCall j = some v) :
    ∃ fields fnFields args,
      j = .obj fields ∧
      lookupField fields "id" = some (.str v.id) ∧
      lookupField fields "function" = some (.obj fnFields) ∧
      lookupField fnFields "name" = some (.str v.fnName) ∧
      lookupField fnFields "arguments" = some v.fnArguments ∧
      v.fnArguments = .obj args := by
  cases j with
  | obj fields =>
    simp only [zodParseOpenAIToolCall, asObjFields, Option.bind_eq_bind,
      Option.some_bind] at h
    rcases Option.bind_eq_some.mp h with ⟨id, hid, h⟩
    rcases Option.bind_eq_some.mp h with ⟨fnFields, hfn, h⟩
    rcases Option.bind_eq_some.mp h with ⟨name, hname, h⟩
    rcases Option.bind_eq_some.mp h with ⟨argsJ, hargsJ, h⟩
    rcases Option.bind_eq_some.mp h with ⟨args, hargs, h⟩
    simp only [Option.pure_def, Option.some.injEq] at h
    subst h
    obtain ⟨hre, fs, hfs⟩ := zodParseRecord_eq_some hargs
    subst hre
    exact ⟨fields, fnFields, fs,
      rfl, bind_asString_eq_some hid, bind_asObjFields_eq_some hfn,
      bind_asString_eq_some hname, hargsJ, hfs⟩
  | null => simp [zodParseOpenAIToolCall, asObjFields] at h
  | bool b => simp [zodParseOpenAIToolCall, asObjFields] at h
  | num q => simp [zodParseOpenAIToolCall, asObjFields] at h
  | str s => simp [zodParseOpenAIToolCall, asObjFields] at h
  | arr xs => simp [zodParseOpenAIToolCall, asObjFields] at h

/-- Inversion of a successful Anthropic-schema validation. -/
theorem zodParseAnthropicToolCall_inv {j : Json} {v : AnthropicParsed}
    (h : zodParseAnthropicToolCall j = some v) :
    ∃ fields args,
      j = .obj fields ∧
      lookupField fields "id" = some (.str v.id) ∧
      lookupField fields "type" = some (.str "tool_use") ∧
      lookupField fields "name" = some (.str v.name) ∧
      lookupField fields "input" = some v.input ∧
      v.input = .obj args := by
  cases j with
  | obj fields =>
    simp only [zodParseAnthropicToolCall, asObjFields, Option.bind_eq_bind,
      Option.some_bind] at h
    rcases Option.bind_eq_some.mp h with ⟨id, hid, h⟩
    rcases Option.bind_eq_some.mp h with ⟨ty, hty, h⟩
    rcases Option.bind_eq_some.mp h with ⟨name, hname, h⟩
    rcases Option.bind_eq_some.mp h with ⟨inputJ, hinputJ, h⟩
    rcases Option.bind_eq_some.mp h with ⟨input, hinput, h⟩
    have hty2 : ty = "tool_use" := by
      by_contra hne
      rw [if_neg hne] at h
      exact Option.noConfusion h
    subst hty2
    rw [if_pos rfl] at h
    simp only [Option.pure_def, Option.some.injEq] at h
    subst h
    obtain ⟨hre, fs, hfs⟩ := zodParseRecord_eq_some hinput
    subst hre
    exact ⟨fields, fs, rfl, bind_asString_eq_some hid, bind_asString_eq_some hty,
      bind_asString_eq_some hname, hinputJ, hfs⟩
  | null => simp [zodParseAnthropicToolCall, asObjFields] at h
  | bool b => simp [zodParseAnthropicToolCall, asObjFields] at h
  | num q => simp [zodParseAnthropicToolCall, asObjFields] at h
  | str s => simp [zodParseAnthropicToolCall, asObjFields] at h
  | arr xs => simp [zodParseAnthropicToolCall, asObjFields] at h

/-- Evaluation of the Anthropic schema on the exact object shape built by the
OpenAI-to-Anthropic conversion. -/
theorem zodParseAnthropic_built (id name : String) (args : List (String × Json)) :
    zodParseAnthropicToolCall (.obj [("id", .str id), ("type", .str "tool_use"),
      ("name", .str name), ("input", .obj args)]) = some ⟨id, name, .obj args, []⟩ := by
  simp [zodParseAnthropicToolCall, asObjFields, lookupField, asString, zodParseRecord,
    List.filter]

/-- The OpenAI schema rejects the object shape built by the OpenAI-to-Anthropic
conversion (no `function` key). -/
theorem zodParseOpenAI_built_none (id name : String) (x : Json) :
    zodParseOpenAIToolCall (.obj [("id", .str id), ("type", .str "tool_use"),
      ("name", .str name), ("input", x)]) = none := by
  simp [zodParseOpenAIToolCall, asObjFields, lookupField, asString]

/-- Evaluation of the Anthropic-to-OpenAI conversion on a validated Anthropic
value without extra keys. -/
theorem anthropicToolCallToOpenAI_built (id name : String) (args : List (String × Json)) :
    anthropicToolCallToOpenAI (AnthropicParsed.toJson ⟨id, name, .obj args, []⟩) =
      some (.obj [("id", .str id),
        ("function", .obj [("name", .str name), ("arguments", .obj args)])]) := by
  have htj : AnthropicParsed.toJson ⟨id, name, .obj args, []⟩ =
      .obj [("id", .str id), ("type", .str "tool_use"),
            ("name", .str name), ("input", .obj args)] := by
    simp [AnthropicParsed.toJson]
  rw [anthropicToolCallToOpenAI, htj, zodParseAnthropic_built]
  rfl

/-- C1: for every OpenAI-dialect tool call whose `function.arguments` is a map
(which a successful `openAIToolCallSchema` validation forces), converting to
the Anthropic dialect with `fromOpenAIToolCall` and back with
`toOpenAIToolCall` yields a tool call whose `id`, `function.name` and
`function.arguments` equal the originals exactly. -/
theorem openai_anthropic_openai_roundtrip (j : Json) (v : OpenAIParsed)
    (h : zodParseOpenAIToolCall j = some v) :
    ∃ a r, fromOpenAIToolCall .ANTHROPIC j = some a ∧ toOpenAIToolCall a = some r ∧
      r.lookup "id" = j.lookup "id" ∧
      ((r.lookup "function").bind (fun f => f.lookup "name")) =
        ((j.lookup "function").bind (fun f => f.lookup "name")) ∧
      ((r.lookup "function").bind (fun f => f.lookup "arguments")) =
        ((j.lookup "function").bind (fun f => f.lookup "arguments")) := by
  obtain ⟨fields, fnFields, args, hj, hid, hfn, hname, hargs, hobj⟩ :=
    zodParseOpenAIToolCall_inv h
  subst hj
  refine ⟨.obj [("id", .str v.id), ("type", .str "tool_use"),
    ("name", .str v.fnName), ("input", .obj args)],
    .obj [("id", .str v.id),
      ("function", .obj [("name", .str v.fnName), ("arguments", .obj args)])],
    ?_, ?_, ?_, ?_, ?_⟩
  · show openAIToolCallToAnthropic _ = _
    rw [openAIToolCallToAnthropic, h]
    simp only [Option.map_some']
    rw [hobj]
  · rw [toOpenAIToolCall, detectToolCallProvider, zodParseOpenAI_built_none,
      zodParseAnthropic_built]
    exact anthropicToolCallToOpenAI_built v.id v.fnName args
  · simp [Json.lookup, lookupField, hid]
  · simp [Json.lookup, lookupField, hfn, hname]
  · simp [Json.lookup, lookupField, hfn, hargs, hobj]

/-- Witness for C1 at a concrete tool call. -/
theorem openai_anthropic_openai_roundtrip_witness :
    zodParseOpenAIToolCall (.obj [("id", .str "1"),
      ("function", .obj [("name", .str "getCurrentWeather"),
        ("arguments", .obj [("city", .str "San Francisco")])])])
      = some ⟨"1", "getCurrentWeather", .obj [("city", .str "San Francisco")], []⟩ ∧
    (∃ a r, fromOpenAIToolCall .ANTHROPIC (.obj [("id", .str "1"),
        ("function", .obj [("name", .str "getCurrentWeather"),
          ("arguments", .obj [("city", .str "San Francisco")])])]) = some a ∧
      toOpenAIToolCall a = some r ∧
      r.lookup "id" = Json.lookup (.obj [("id", .str "1"),
        ("function", .obj [("name", .str "getCurrentWeather"),
          ("arguments", .obj [("city", .str "San Francisco")])])]) "id" ∧
      ((r.lookup "function").bind (fun f => f.lookup "name")) =
        ((Json.lookup (.obj [("id", .str "1"),
          ("function", .obj [("name", .str "getCurrentWeather"),
            ("arguments", .obj [("city", .str "San Francisco")])])]) "function").bind
          (fun f => f.lookup "name")) ∧
      ((r.lookup "function").bind (fun f => f.lookup "arguments")) =
        ((Json.lookup (.obj [("id", .str "1"),
          ("function", .obj [("name", .str "getCurrentWeather"),
            ("arguments", .obj [("city", .str "San Francisco")])])]) "function").bind
          (fun f => f.lookup "arguments"))) :=
  ⟨rfl, openai_anthropic_openai_roundtrip _ _ rfl⟩

/-- C2 (code bug): the schema file's own comment asserts the nested
passthroughs "do not actually allow for extra keys when the zod schema is used
for parsing", and the claim accordingly says the validated value contains only
declared fields — but zod `.passthrough()` retains unknown keys, so detection
returns validated values that keep an extra key at the top level of an
Anthropic tool call and inside the `function` object of an OpenAI tool call. -/
theorem detect_validated_output_retains_extra_keys :
    detectToolCallProvider (.obj [("id", .str "1"), ("type", .str "tool_use"),
      ("name", .str "t"), ("input", .obj []), ("extra", .num 1)])
      = .known .ANTHROPIC (.obj [("id", .str "1"), ("type", .str "tool_use"),
          ("name", .str "t"), ("input", .obj []), ("extra", .num 1)]) ∧
    detectToolCallProvider (.obj [("id", .str "1"),
      ("function", .obj [("name", .str "f"), ("arguments", .obj []), ("extra", .num 2)])])
      = .known .OPENAI (.obj [("id", .str "1"),
          ("function", .obj [("name", .str "f"), ("arguments", .obj []), ("extra", .num 2)])]) :=
  ⟨rfl, rfl⟩

/-- C5: detection tries the OpenAI-dialect schema first (and tags every match
of that shared wire dialect OPENAI), then the Anthropic-dialect schema — whose
success forces the literal discriminator `type == "tool_use"` — and otherwise
returns the UNKNOWN sentinel with no validated value. -/
theorem detect_priority_order (j : Json) :
    (∀ v, zodParseOpenAIToolCall j = some v →
      detectToolCallProvider j = .known .OPENAI v.toJson)
  ∧ (zodParseOpenAIToolCall j = none →
      ∀ v, zodParseAnthropicToolCall j = some v →
        detectToolCallProvider j = .known .ANTHROPIC v.toJson)
  ∧ (zodParseOpenAIToolCall j = none → zodParseAnthropicToolCall j = none →
      detectToolCallProvider j = .unknown)
  ∧ (∀ v, zodParseAnthropicToolCall j = some v →
      j.lookup "type" = some (.str "tool_use")) := by
  refine ⟨?_, ?_, ?_, ?_⟩
  · intro v hv
    rw [detectToolCallProvider, hv]
  · intro ho v hv
    rw [detectToolCallProvider, ho, hv]
  · intro ho ha
    rw [detectToolCallProvider, ho, ha]
  · intro v hv
    obtain ⟨fields, args, hj, _, hty, _, _, _⟩ := zodParseAnthropicToolCall_inv hv
    rw [hj, Json.lookup, hty]

/-- Witness for C5 at concrete inputs for each of the three detection
outcomes. -/
theorem detect_priority_order_witness :
    detectToolCallProvider (.obj [("id", .str "1"),
      ("function", .obj [("name", .str "f"), ("arguments", .obj [])])])
      = .known .OPENAI (OpenAIParsed.toJson ⟨"1", "f", .obj [], []⟩) ∧
    detectToolCallProvider (.obj [("id", .str "2"), ("type", .str "tool_use"),
      ("name", .str "t"), ("input", .obj [])])
      = .known .ANTHROPIC (AnthropicParsed.toJson ⟨"2", "t", .obj [], []⟩) ∧
    detectToolCallProvider (.str "garbage") = .unknown :=
  ⟨(detect_priority_order (.obj [("id", .str "1"),
      ("function", .obj [("name", .str "f"), ("arguments", .obj [])])])).1 _ rfl,
   ((detect_priority_order (.obj [("id", .str "2"), ("type", .str "tool_use"),
      ("name", .str "t"), ("input", .obj [])])).2.1 rfl) _ rfl,
   (detect_priority_order (.str "garbage")).2.2.1 rfl rfl⟩

/-- C6 (amended): for every tool call accepted by the OpenAI schema — whose
`function.arguments` is then necessarily a map — `fromOpenAIToolCall` to the
Anthropic target produces `(id, type:"tool_use", name, input := arguments)`;
when `function.arguments` is a string instead, the schema validation inside
`fromOpenAIToolCall` fails (a thrown `ZodError`), so no value is produced: the
single-entry-map wrapping in the transform body is unreachable through
`fromOpenAIToolCall`. -/
theorem fromOpenAI_anthropic_mapping :
    (∀ j v, zodParseOpenAIToolCall j = some v →
      fromOpenAIToolCall .ANTHROPIC j =
        some (.obj [("id", .str v.id), ("type", .str "tool_use"),
                    ("name", .str v.fnName), ("input", v.fnArguments)]))
  ∧ (∀ j fn s, j.lookup "function" = some fn →
      fn.lookup "arguments" = some (.str s) →
      fromOpenAIToolCall .ANTHROPIC j = none) := by
  constructor
  · intro j v h
    obtain ⟨fields, fnFields, args, hj, hid, hfn, hname, hargs, hobj⟩ :=
      zodParseOpenAIToolCall_inv h
    show openAIToolCallToAnthropic j = _
    rw [openAIToolCallToAnthropic, h]
    simp only [Option.map_some']
    rw [hobj]
  · intro j fn s hfn hargs
    show openAIToolCallToAnthropic j = none
    rw [openAIToolCallToAnthropic]
    cases hp : zodParseOpenAIToolCall j with
    | none => rfl
    | some v =>
      exfalso
      obtain ⟨fields, fnFields, args, hj, _, hfn2, _, hargs2, hobj⟩ :=
        zodParseOpenAIToolCall_inv hp
      rw [hj, Json.lookup, hfn2] at hfn
      cases hfn
      rw [Json.lookup, hargs2, hobj] at hargs
      exact Json.noConfusion (Option.some.inj hargs)

/-- Witness for C6's universally quantified part at a concrete tool call. -/
theorem fromOpenAI_anthropic_mapping_witness :
    zodParseOpenAIToolCall (.obj [("id", .str "1"),
      ("function", .obj [("name", .str "f"), ("arguments", .obj [("a", .num 1)])])])
      = some ⟨"1", "f", .obj [("a", .num 1)], []⟩ ∧
    fromOpenAIToolCall .ANTHROPIC (.obj [("id", .str "1"),
      ("function", .obj [("name", .str "f"), ("arguments", .obj [("a", .num 1)])])])
      = some (.obj [("id", .str "1"), ("type", .str "tool_use"),
          ("name", .str "f"), ("input", .obj [("a", .num 1)])]) :=
  ⟨rfl, fromOpenAI_anthropic_mapping.1 _ ⟨"1", "f", .obj [("a", .num 1)], []⟩ rfl⟩

/-- Counterexample to C6 as stated: on an OpenAI-shaped tool call whose
`function.arguments` is the string "abc", the claim predicts the Anthropic
conversion produces `input = ("abc" ↦ "abc")`; the code instead fails
validation inside `openAIToolCallToAnthropic.parse` (z.record rejects
strings), so `fromOpenAIToolCall` produces no value at all. -/
theorem fromOpenAI_anthropic_string_args_counterexample :
    fromOpenAIToolCall .ANTHROPIC (.obj [("id", .str "1"),
      ("function", .obj [("name", .str "f"), ("arguments", .str "abc")])]) = none ∧
    (none : Option Json) ≠
      some (.obj [("id", .str "1"), ("type", .str "tool_use"), ("name", .str "f"),
        ("input", .obj [("abc", .str "abc")])]) :=
  ⟨rfl, fun h => Option.noConfusion h⟩

/-- C3: a failed JSON ingestion of the span attributes short-circuits the
whole extraction: the caller receives the default instance (with only the span
id set) and exactly the single fatal error code. -/
theorem transform_fatal_parse_error (span : PlaygroundSpan)
    (h : safelyParseJSON span.attributes = none) :
    transformSpanAttributesToPlaygroundInstance span =
      some ({ createPlaygroundInstance with spanId := some span.id },
            [.SPAN_ATTRIBUTES_PARSING_ERROR]) := by
  simp only [transformSpanAttributesToPlaygroundInstance, h]

/-- Witness for C3 at the spec's concrete malformed attributes text. -/
theorem transform_fatal_parse_error_witness :
    safelyParseJSON "\x7binvalid" = none ∧
    transformSpanAttributesToPlaygroundInstance
      { id := "span-1", attributes := "\x7binvalid", invocationParameters := [] } =
      some ({ createPlaygroundInstance with spanId := some "span-1" },
            [.SPAN_ATTRIBUTES_PARSING_ERROR]) :=
  ⟨rfl, transform_fatal_parse_error
    { id := "span-1", attributes := "\x7binvalid", invocationParameters := [] } rfl⟩

/-- C4: an absent `llm.tools` path yields no tools and no error; a tools shape
that fails validation yields no tools and exactly `TOOLS_PARSING_ERROR`
(including the spec's two concrete examples). -/
theorem tools_absence_vs_malformation :
    (∀ j d, llmToolSchemaParse j = some d → d.llm.bind (fun l => l.tools) = none →
      getToolsFromAttributes j = (none, []))
  ∧ (∀ j, llmToolSchemaParse j = none →
      getToolsFromAttributes j = (none, [.TOOLS_PARSING_ERROR]))
  ∧ getToolsFromAttributes (.obj []) = (none, [])
  ∧ getToolsFromAttributes (.obj [("llm", .obj [("tools", .str "not-a-list")])])
      = (none, [.TOOLS_PARSING_ERROR]) := by
  refine ⟨?_, ?_, rfl, rfl⟩
  · intro j d hd hnone
    simp [getToolsFromAttributes, hd, hnone]
  · intro j hj
    simp [getToolsFromAttributes, hj]

/-- Witness for C4's quantified parts at concrete inputs. -/
theorem tools_absence_vs_malformation_witness :
    llmToolSchemaParse (.obj [("llm", .obj [])]) = some ⟨some ⟨none⟩⟩ ∧
    getToolsFromAttributes (.obj [("llm", .obj [])]) = (none, []) ∧
    llmToolSchemaParse (.arr []) = none ∧
    getToolsFromAttributes (.arr []) = (none, [.TOOLS_PARSING_ERROR]) :=
  ⟨rfl, tools_absence_vs_malformation.1 _ ⟨some ⟨none⟩⟩ rfl rfl, rfl,
    tools_absence_vs_malformation.2.1 _ rfl⟩

/-- C7: the output extraction tries `llm.output_messages` first; on failure it
appends `OUTPUT_MESSAGES_PARSING_ERROR` and tries `output.value`; on failure
of that too it appends `OUTPUT_VALUE_PARSING_ERROR` and returns no output, so
inputs failing both shapes get both codes together, in that order. -/
theorem output_fallback_error_accumulation :
    (∀ (provider : ModelProvider) (j : Json) msgs ms,
      llmOutputMessagesParse j = some msgs →
      processAttributeMessagesToChatMessage provider msgs = some ms →
      getOutputFromAttributes provider j = some (some (.messages ms), []))
  ∧ (∀ (provider : ModelProvider) (j : Json) (s : String),
      llmOutputMessagesParse j = none → outputValueParse j = some s →
      getOutputFromAttributes provider j =
        some (some (.text s), [.OUTPUT_MESSAGES_PARSING_ERROR]))
  ∧ (∀ (provider : ModelProvider) (j : Json),
      llmOutputMessagesParse j = none → outputValueParse j = none →
      getOutputFromAttributes provider j =
        some (none, [.OUTPUT_MESSAGES_PARSING_ERROR, .OUTPUT_VALUE_PARSING_ERROR])) := by
  refine ⟨?_, ?_, ?_⟩
  · intro provider j msgs ms h1 h2
    simp [getOutputFromAttributes, h1, h2]
  · intro provider j s h1 h2
    simp [getOutputFromAttributes, h1, h2]
  · intro provider j h1 h2
    simp [getOutputFromAttributes, h1, h2]

/-- Witness for C7 at concrete inputs for each of the three paths. -/
theorem output_fallback_error_accumulation_witness :
    getOutputFromAttributes .OPENAI (.obj [("llm", .obj [("output_messages", .arr [])])])
      = some (some (.messages []), []) ∧
    getOutputFromAttributes .OPENAI (.obj [("output", .obj [("value", .str "out")])])
      = some (some (.text "out"), [.OUTPUT_MESSAGES_PARSING_ERROR]) ∧
    getOutputFromAttributes .OPENAI (.obj [])
      = some (none, [.OUTPUT_MESSAGES_PARSING_ERROR, .OUTPUT_VALUE_PARSING_ERROR]) :=
  ⟨output_fallback_error_accumulation.1 .OPENAI _ [] [] rfl rfl,
   output_fallback_error_accumulation.2.1 .OPENAI _ "out" rfl rfl,
   output_fallback_error_accumulation.2.2 .OPENAI _ rfl rfl⟩

/-- C8: role resolution is total (every string maps into the closed role
enum): an exact enum member resolves to itself, otherwise the first alias
table entry containing the string decides, otherwise the fixed default role is
returned; in particular "ai" resolves to the assistant role and
"unknown-role-xyz" to the default role. -/
theorem role_resolution_total (role : String) :
    (∀ r, chatMessageRoleOfString role = some r → getChatRole role = r)
  ∧ (chatMessageRoleOfString role = none →
      ∀ entry, ChatRoleMap.find? (fun p => p.2.contains role) = some entry →
        getChatRole role = entry.1)
  ∧ (chatMessageRoleOfString role = none →
      ChatRoleMap.find? (fun p => p.2.contains role) = none →
      getChatRole role = DEFAULT_CHAT_ROLE)
  ∧ getChatRole "ai" = .assistant
  ∧ getChatRole "unknown-role-xyz" = DEFAULT_CHAT_ROLE := by
  refine ⟨?_, ?_, ?_, rfl, rfl⟩
  · intro r hr
    simp [getChatRole, hr]
  · intro hnone entry hfind
    unfold getChatRole
    rw [hnone, hfind]
  · intro hnone hfind
    unfold getChatRole
    rw [hnone, hfind]

/-- Witness for C8's quantified parts at concrete role strings. -/
theorem role_resolution_total_witness :
    getChatRole "system" = .system ∧
    getChatRole "ai" = .assistant ∧
    getChatRole "somebody-else" = DEFAULT_CHAT_ROLE :=
  ⟨(role_resolution_total "system").1 .system rfl,
   ((role_resolution_total "ai").2.1 rfl) (.assistant, ["ai"]) rfl,
   (role_resolution_total "somebody-else").2.2.1 rfl rfl⟩

/-- The reconciliation find-predicate of the source (JS truthiness) agrees
with the claim-side non-empty matcher. -/
theorem truthy_match_eq_matchesKey (v : JsVal) (key : String) :
    (match v.truthyStr with
     | some s => strToLower s == strToLower key
     | none => false) = matchesKeyCaseInsensitive v key := by
  cases v with
  | str s =>
    by_cases hs : s = ""
    · subst hs
      simp [JsVal.truthyStr, matchesKeyCaseInsensitive]
    · simp [JsVal.truthyStr, matchesKeyCaseInsensitive, hs]
  | undef => rfl
  | null => rfl

/-- C9 (amended): reconciliation emits, for each raw `(key, value)` entry, the
input built from the first definition whose non-empty `canonicalName` or
non-empty `invocationName` equals the key case-insensitively (a definition
whose stored name is the empty string never matches, by JS truthiness), and
drops the entry when no definition matches or the matched definition lacks an
`invocationInputField` or `invocationName`; the spec's temperature example and
unmatched-key example behave as stated. -/
theorem reconcile_invocation_parameters :
    (∀ (raw : List (String × Json)) (defs : List InvocationParameter),
      transformInvocationParametersFromAttributesToInvocationParameterInputs raw defs =
        raw.filterMap (reconcileEntryAmended defs))
  ∧ transformInvocationParametersFromAttributesToInvocationParameterInputs
      [("temperature", .num (Rat.divInt 7 10))]
      [{ invocationName := .str "temperature", canonicalName := .undef,
         invocationInputField := .str "double_value" }]
      = [{ invocationName := "temperature", canonicalName := .undef,
           valueField := "doubleValue", value := .num (Rat.divInt 7 10) }]
  ∧ transformInvocationParametersFromAttributesToInvocationParameterInputs
      [("unknown_param", .num 1)]
      [{ invocationName := .str "temperature", canonicalName := .undef,
         invocationInputField := .str "double_value" }] = [] := by
  refine ⟨?_, rfl, rfl⟩
  intro raw defs
  unfold transformInvocationParametersFromAttributesToInvocationParameterInputs
  apply List.filterMap_congr
  intro kv _
  have hfind : defs.find? (fun mp =>
      (match mp.canonicalName.truthyStr with
       | some cn => strToLower cn == strToLower kv.1
       | none => false) ||
      (match mp.invocationName.truthyStr with
       | some n => strToLower n == strToLower kv.1
       | none => false)) =
    defs.find? (fun mp =>
      matchesKeyCaseInsensitive mp.canonicalName kv.1 ||
      matchesKeyCaseInsensitive mp.invocationName kv.1) := by
    congr 1
    funext mp
    rw [truthy_match_eq_matchesKey, truthy_match_eq_matchesKey]
  rw [hfind, reconcileEntryAmended]
  cases defs.find? (fun mp =>
      matchesKeyCaseInsensitive mp.canonicalName kv.1 ||
      matchesKeyCaseInsensitive mp.invocationName kv.1) with
  | none => rfl
  | some mp => cases hf : mp.invocationInputField <;> cases hn : mp.invocationName <;> rfl

/-- Counterexample to C9 as stated: with the raw map `("" ↦ 1)` and a
definition whose `invocationName` is the (empty) string `""` equal to the key
case-insensitively and which lacks neither `invocationInputField` nor
`invocationName`, the claim predicts the emission of an input, but the
source's JS-truthiness find predicate skips the empty-string name and emits
nothing. -/
theorem reconcile_empty_name_counterexample :
    transformInvocationParametersFromAttributesToInvocationParameterInputs
      [("", .num 1)]
      [{ invocationName := .str "", canonicalName := .undef,
         invocationInputField := .str "double_value" }] = [] ∧
    (strToLower "" == strToLower "") = true ∧
    (JsVal.str "").isNullish = false ∧
    (JsVal.str "double_value").isNullish = false ∧
    ([] : List InvocationParameterInput) ≠
      [{ invocationName := "", canonicalName := .undef,
         valueField := "doubleValue", value := .num 1 }] :=
  ⟨rfl, rfl, rfl, rfl, fun h => List.noConfusion h⟩

/-- The constrain keep-criterion of the source agrees with the claim-side
`KeepsInput` proposition. -/
theorem constrain_keep_eq_KeepsInput (defs : List InvocationParameter)
    (ip : InvocationParameterInput) :
    (defs.any fun mp =>
      mp.invocationName == JsVal.str ip.invocationName ||
      (!mp.canonicalName.isNullish && !ip.canonicalName.isNullish &&
        mp.canonicalName == ip.canonicalName)) = decide (KeepsInput defs ip) := by
  have hiff : (defs.any fun mp =>
      mp.invocationName == JsVal.str ip.invocationName ||
      (!mp.canonicalName.isNullish && !ip.canonicalName.isNullish &&
        mp.canonicalName == ip.canonicalName)) = true ↔ KeepsInput defs ip := by
    simp only [KeepsInput, List.any_eq_true, Bool.or_eq_true, Bool.and_eq_true,
      beq_iff_eq, Bool.not_eq_true', Bool.not_eq_true]
    constructor
    · rintro ⟨mp, hmem, hcase⟩
      exact ⟨mp, hmem, by tauto⟩
    · rintro ⟨mp, hmem, hcase⟩
      exact ⟨mp, hmem, by tauto⟩
  by_cases hK : KeepsInput defs ip
  · rw [decide_eq_true hK, hiff.mpr hK]
  · rw [decide_eq_false hK]
    cases hA : (defs.any fun mp =>
      mp.invocationName == JsVal.str ip.invocationName ||
      (!mp.canonicalName.isNullish && !ip.canonicalName.isNullish &&
        mp.canonicalName == ip.canonicalName)) with
    | false => rfl
    | true => exact absurd (hiff.mp hA) hK

/-- C10 (amended): `constrain` keeps exactly the inputs matching some
definition by exact equality on `invocationName`, or by exact equality on
`canonicalName` when both sides are non-null, and rewrites each survivor's
`invocationName` to that of the first definition whose `canonicalName` is
strictly identical to the input's — including when both are absent/null in the
same way, so an input without a canonical name can be renamed by a definition
that also lacks one — leaving it unchanged when there is no such definition or
it lacks an `invocationName`. -/
theorem constrain_inputs_to_definitions (inputs : List InvocationParameterInput)
    (defs : List InvocationParameter) :
    constrainInvocationParameterInputsToDefinition inputs defs =
      (inputs.filter fun ip => decide (KeepsInput defs ip)).map (rewriteInputName defs) := by
  unfold constrainInvocationParameterInputsToDefinition
  rw [show (fun ip => defs.any fun mp =>
      mp.invocationName == JsVal.str ip.invocationName ||
      (!mp.canonicalName.isNullish && !ip.canonicalName.isNullish &&
        mp.canonicalName == ip.canonicalName)) =
    (fun ip => decide (KeepsInput defs ip)) from
    funext fun ip => constrain_keep_eq_KeepsInput defs ip]
  apply List.map_congr_left
  intro ip _
  rw [rewriteInputName]
  cases hfind : defs.find? (fun mp => mp.canonicalName == ip.canonicalName) with
  | none => rfl
  | some mp => cases hn : mp.invocationName <;> simp [JsVal.strVal, hn]

/-- Counterexample to C10 as stated: the kept input has no canonical name, so
per the claim no definition "matches its canonical parameter" and its
`invocationName` must stay "temp"; the source's rewrite `find` compares with
strict `===`, under which `undefined === undefined`, so the first definition
(also lacking a canonical name) renames the input to "other". -/
theorem constrain_null_canonical_counterexample :
    constrainInvocationParameterInputsToDefinition
      [{ invocationName := "temp", canonicalName := .undef,
         valueField := "doubleValue", value := .num 1 }]
      [{ invocationName := .str "other", canonicalName := .undef,
         invocationInputField := .undef },
       { invocationName := .str "temp", canonicalName := .undef,
         invocationInputField := .undef }]
      = [{ invocationName := "other", canonicalName := .undef,
           valueField := "doubleValue", value := .num 1 }] ∧
    ("other" : String) ≠ "temp" :=
  ⟨rfl, by decide⟩
